import Mathlib

/-!
Verification of the latest-ledger metrics processor (`core/processor.go`).

The Go code scans a ledger's transactions through an external iterator
(`ingest.LedgerTransactionReader`), classifies each transaction, accumulates
counters into a `LatestLedger` record, and computes a throughput figure from
the processor's stored previous close time.

Embedding choices:
* The external reader boundary is modelled by the data it hands to the loop:
  `LedgerCloseMeta.reads` is either a construction failure (the error of
  `NewLedgerTransactionReaderFromLedgerCloseMeta`) or the finite sequence of
  `Read()` outcomes before `io.EOF`, each a decoded transaction or an error
  message.
* Go `int`/`int64` counters are modelled by `Int`, `uint32`/`uint64` fields by
  `Nat`; the per-block quantities are bounded by the block's size so machine
  overflow cannot occur on any input the code can receive.
* `time.Time` values and the `float64` throughput are modelled by `ℚ`
  (seconds).  The stored previous close time is `Option ℚ`: `none` models the
  Go zero `time.Time` that `IsZero` tests, which `time.Unix` never produces,
  so every stored close time is `some`.
* `strings.Contains` is modelled by an explicit character-list search.
-/

/-- Character-list prefix test, used to model Go `strings.Contains`. -/
def leadEq : List Char → List Char → Bool
  | [], _ => true
  | _ :: _, [] => false
  | a :: as, b :: bs => a == b && leadEq as bs

/-- Substring occurrence test on character lists. -/
def seqContains (pat : List Char) : List Char → Bool
  | [] => leadEq pat []
  | c :: rest => leadEq pat (c :: rest) || seqContains pat rest

/-- Model of Go `strings.Contains(s, substr)`. -/
def goContains (s substr : String) : Bool :=
  seqContains substr.data s.data

/-- The soft-failure signature matched at `processor.go:95`. -/
def unknownTxHashSig : String := "unknown tx hash"

/-- Model of `xdr.SorobanResources` (the fields read by `getSorobanMetrics`). -/
structure SorobanResources where
  instructions : Nat
  readBytes : Nat
  writeBytes : Nat
deriving DecidableEq, Repr

/-- Model of `xdr.SorobanTransactionData` (the fields read by `getSorobanMetrics`). -/
structure SorobanTransactionData where
  resourceFee : Int
  resources : SorobanResources
deriving DecidableEq, Repr

/-- Go zero value of `xdr.SorobanTransactionData`. -/
def zeroSorobanData : SorobanTransactionData :=
  { resourceFee := 0, resources := { instructions := 0, readBytes := 0, writeBytes := 0 } }

/-- Model of the transaction extension union: `GetSorobanData` returns
`(data, true)` on the Soroban arm and `(zero, false)` otherwise. -/
inductive TransactionExt where
  | v0
  | v1 (sorobanData : SorobanTransactionData)
deriving DecidableEq, Repr

/-- Model of `xdr.TransactionExt.GetSorobanData`, as an `Option`. -/
def TransactionExt.getSorobanData : TransactionExt → Option SorobanTransactionData
  | .v0 => none
  | .v1 d => some d

/-- Model of `xdr.Transaction` (a plain V1 transaction body): its operation
list and its extension. -/
structure TransactionBody where
  operations : List Unit
  ext : TransactionExt
deriving DecidableEq, Repr

/-- Model of `xdr.TransactionEnvelope`: the tagged union switched on by
`hasSorobanTransaction`/`getSorobanMetrics`.  `v0` stands for every envelope
type other than `EnvelopeTypeTx` and `EnvelopeTypeTxFeeBump`.  The fee-bump
arm holds `FeeBump.Tx.InnerTx.V1`, the inner plain transaction. -/
inductive TransactionEnvelope where
  | v0 (operations : List Unit)
  | v1 (tx : TransactionBody)
  | feeBump (innerTxV1 : TransactionBody)
deriving DecidableEq, Repr

/-- Model of `xdr.TransactionEnvelope.Operations()`: the operation list of the
underlying transaction (the inner transaction for a fee bump). -/
def TransactionEnvelope.Operations : TransactionEnvelope → List Unit
  | .v0 ops => ops
  | .v1 t => t.operations
  | .feeBump inner => inner.operations

/-- Model of the transaction result wrapper: the two observations the scan
makes, `tx.Result.Result.FeeCharged` and `tx.Result.Successful()`. -/
structure TransactionResultPair where
  feeCharged : Int
  successful : Bool
deriving DecidableEq, Repr

/-- Model of `ingest.LedgerTransaction`: the envelope and result of one
decoded transaction. -/
structure LedgerTransaction where
  envelope : TransactionEnvelope
  result : TransactionResultPair
deriving DecidableEq, Repr

/-- One outcome of `txReader.Read()` before `io.EOF`: a decoded transaction
or a non-EOF error with its message. -/
inductive ReadOutcome where
  | tx (t : LedgerTransaction)
  | readErr (msg : String)
deriving DecidableEq, Repr

/-- Model of `xdr.LedgerCloseMeta` at the boundary the processor observes:
the block-level metadata extracted by the `ingest/ledger` helpers, and the
reader behaviour — either a construction error or the sequence of `Read()`
outcomes. -/
structure LedgerCloseMeta where
  sequence : Nat
  hash : String
  baseFee : Nat
  closedAt : ℚ
  reads : Except String (List ReadOutcome)

/-- Model of `core.LatestLedger`, the output record. -/
structure LatestLedger where
  sequence : Nat := 0
  hash : String := ""
  transactionCount : Int := 0
  txSetOperationCount : Int := 0
  successfulOperationCount : Int := 0
  successfulTxCount : Int := 0
  failedTxCount : Int := 0
  totalFeeCharged : Int := 0
  closedAt : ℚ := 0
  baseFee : Nat := 0
  transactionsPerSecond : ℚ := 0
  sorobanTxCount : Int := 0
  totalSorobanFees : Int := 0
  totalResourceInstructions : Nat := 0
  skippedTxCount : Int := 0
  unknownTxCount : Int := 0
deriving DecidableEq, Repr

/-- Model of `core.sorobanMetrics`. -/
structure sorobanMetrics where
  resourceFee : Int
  instructions : Nat
  readBytes : Nat
  writeBytes : Nat
deriving DecidableEq, Repr

/-- Model of `core.Config`. -/
structure Config where
  NetworkPassphrase : String
deriving DecidableEq, Repr

/-- Model of `core.Processor`.  `PreviousLedgerCloseTime = none` models the
Go zero `time.Time` (`IsZero` true). -/
structure Processor where
  NetworkPassphrase : String
  PreviousLedgerCloseTime : Option ℚ
deriving DecidableEq, Repr

/-- Model of `core.NewProcessor`. -/
def NewProcessor (config : Config) : Processor :=
  { NetworkPassphrase := config.NetworkPassphrase, PreviousLedgerCloseTime := none }

/-- Model of `core.hasSorobanTransaction` (`processor.go:182`). -/
def hasSorobanTransaction (tx : LedgerTransaction) : Bool :=
  match tx.envelope with
  | .v1 t => (t.ext.getSorobanData).isSome
  | .feeBump inner => (inner.ext.getSorobanData).isSome
  | _ => false

/-- Model of `core.getSorobanMetrics` (`processor.go:195`): the Go code drops
the `ok` flag of `GetSorobanData`, leaving the zero value when absent. -/
def getSorobanMetrics (tx : LedgerTransaction) : sorobanMetrics :=
  let sorobanData : SorobanTransactionData :=
    match tx.envelope with
    | .v1 t => (t.ext.getSorobanData).getD zeroSorobanData
    | .feeBump inner => (inner.ext.getSorobanData).getD zeroSorobanData
    | _ => zeroSorobanData
  { resourceFee := sorobanData.resourceFee
    instructions := sorobanData.resources.instructions
    readBytes := sorobanData.resources.readBytes
    writeBytes := sorobanData.resources.writeBytes }

/-- Loop body of `ProcessLedger` for one successfully read transaction
(`processor.go:106-124`). -/
def processTxRecord (metrics : LatestLedger) (tx : LedgerTransaction) : LatestLedger :=
  let operationCount : Int := (tx.envelope.Operations).length
  let m1 := { metrics with
    transactionCount := metrics.transactionCount + 1
    txSetOperationCount := metrics.txSetOperationCount + operationCount
    totalFeeCharged := metrics.totalFeeCharged + tx.result.feeCharged }
  let m2 :=
    if tx.result.successful then
      { m1 with
        successfulTxCount := m1.successfulTxCount + 1
        successfulOperationCount := m1.successfulOperationCount + operationCount }
    else
      { m1 with failedTxCount := m1.failedTxCount + 1 }
  if hasSorobanTransaction tx then
    let sMetrics := getSorobanMetrics tx
    { m2 with
      sorobanTxCount := m2.sorobanTxCount + 1
      totalSorobanFees := m2.totalSorobanFees + sMetrics.resourceFee
      totalResourceInstructions := m2.totalResourceInstructions + sMetrics.instructions }
  else m2

/-- The transaction loop of `ProcessLedger` (`processor.go:92-125`): reads
until EOF (list end); an error whose message contains `"unknown tx hash"`
bumps the transaction, failed and unknown counters and continues; any other
error aborts the block. -/
def readLoop (metrics : LatestLedger) : List ReadOutcome → Except String LatestLedger
  | [] => .ok metrics
  | .readErr msg :: rest =>
      if goContains msg unknownTxHashSig then
        readLoop { metrics with
          transactionCount := metrics.transactionCount + 1
          failedTxCount := metrics.failedTxCount + 1
          unknownTxCount := metrics.unknownTxCount + 1 } rest
      else
        .error ("error reading transaction: " ++ msg)
  | .tx t :: rest => readLoop (processTxRecord metrics t) rest

/-- The `LatestLedger` literal built at `processor.go:82-87`: block-level
metadata, all counters zero. -/
def initMetrics (ledgerCloseMeta : LedgerCloseMeta) : LatestLedger :=
  { sequence := ledgerCloseMeta.sequence
    hash := ledgerCloseMeta.hash
    baseFee := ledgerCloseMeta.baseFee
    closedAt := ledgerCloseMeta.closedAt }

/-- The throughput computation of `ProcessLedger` (`processor.go:127-142`):
fills `transactionsPerSecond` from the stored previous close time. -/
def applyRate (p : Processor) (metrics : LatestLedger) : LatestLedger :=
  match p.PreviousLedgerCloseTime with
  | some prev =>
    let timeDiff : ℚ := metrics.closedAt - prev
    if timeDiff > 0 then
      { metrics with
        transactionsPerSecond := (metrics.successfulOperationCount : ℚ) / timeDiff }
    else
      { metrics with
        transactionsPerSecond := (metrics.successfulOperationCount : ℚ) / 5 }
  | none =>
    { metrics with
      transactionsPerSecond := (metrics.successfulOperationCount : ℚ) / 5 }

/-- Model of `core.Processor.ProcessLedger` (`processor.go:69-148`).  Returns
the updated processor (the receiver after the call) together with the Go
return value `(*LatestLedger, error)` as an `Except`. -/
def ProcessLedger (p : Processor) (ledgerCloseMeta : LedgerCloseMeta) :
    Processor × Except String LatestLedger :=
  match ledgerCloseMeta.reads with
  | .error e => (p, .error ("error creating transaction reader: " ++ e))
  | .ok items =>
    match readLoop (initMetrics ledgerCloseMeta) items with
    | .error e => (p, .error e)
    | .ok metrics =>
      let metrics := applyRate p metrics
      ({ p with PreviousLedgerCloseTime := some metrics.closedAt }, .ok metrics)

/-! ### Specification-side bookkeeping functions

Per-item contributions to each accumulated counter, used to state what the
scan computes.  A `readErr` item contributes nothing to fee, operation and
resource sums, and one unit to the transaction, failed and unknown counts. -/

/-- Fee contribution of one read outcome. -/
def feeOf : ReadOutcome → Int
  | .tx t => t.result.feeCharged
  | .readErr _ => 0

/-- Operation-count contribution of one read outcome. -/
def opsOf : ReadOutcome → Int
  | .tx t => (t.envelope.Operations).length
  | .readErr _ => 0

/-- Successful-operation contribution of one read outcome. -/
def succOpsOf : ReadOutcome → Int
  | .tx t => if t.result.successful then (t.envelope.Operations).length else 0
  | .readErr _ => 0

/-- Successful-transaction contribution of one read outcome. -/
def succTxOf : ReadOutcome → Int
  | .tx t => if t.result.successful then 1 else 0
  | .readErr _ => 0

/-- Failed-transaction contribution: unreadable records count as failed. -/
def failTxOf : ReadOutcome → Int
  | .tx t => if t.result.successful then 0 else 1
  | .readErr _ => 1

/-- Unknown-transaction contribution of one read outcome. -/
def unknownTxOf : ReadOutcome → Int
  | .tx _ => 0
  | .readErr _ => 1

/-- Soroban-transaction contribution of one read outcome. -/
def sorobanTxOf : ReadOutcome → Int
  | .tx t => if hasSorobanTransaction t then 1 else 0
  | .readErr _ => 0

/-- Soroban resource-fee contribution of one read outcome. -/
def sorobanFeeOf : ReadOutcome → Int
  | .tx t => if hasSorobanTransaction t then (getSorobanMetrics t).resourceFee else 0
  | .readErr _ => 0

/-- Soroban instruction contribution of one read outcome. -/
def instrOf : ReadOutcome → Nat
  | .tx t => if hasSorobanTransaction t then (getSorobanMetrics t).instructions else 0
  | .readErr _ => 0

/-- Sum of an integer contribution over a list of read outcomes. -/
def sumBy (f : ReadOutcome → Int) : List ReadOutcome → Int
  | [] => 0
  | i :: rest => f i + sumBy f rest

/-- Sum of a natural-number contribution over a list of read outcomes. -/
def natSumBy (f : ReadOutcome → Nat) : List ReadOutcome → Nat
  | [] => 0
  | i :: rest => f i + natSumBy f rest

/-- Whether a read outcome is benign for the scan: a decoded transaction, or
an error of the recognized unknown-transaction class. -/
def errIsUnknown : ReadOutcome → Bool
  | .tx _ => true
  | .readErr msg => goContains msg unknownTxHashSig

/-- Whether an `Except` value is a success. -/
def exceptIsOk : Except ε α → Bool
  | .ok _ => true
  | .error _ => false

/-! ### Concrete sample inputs used in the closed witness theorems -/

/-- Sample unknown-class read error message. -/
def wUnknownMsg : String := "unknown tx hash: abc123"

/-- Sample unrecognized read error message. -/
def wFatalMsg : String := "tx not found"

/-- The error `ProcessLedger` reports for `wFatalMsg`. -/
def wFatalErr : String := "error reading transaction: tx not found"

/-- A successful plain transaction: two operations, fee 100, no Soroban data. -/
def wTxA : LedgerTransaction :=
  ⟨TransactionEnvelope.v1 ⟨[(), ()], TransactionExt.v0⟩, ⟨100, true⟩⟩

/-- A failed fee-bump transaction whose inner transaction carries Soroban
data: one operation, fee 50, resource fee 7, 3 instructions. -/
def wTxB : LedgerTransaction :=
  ⟨TransactionEnvelope.feeBump ⟨[()], TransactionExt.v1 ⟨7, ⟨3, 1, 2⟩⟩⟩, ⟨50, false⟩⟩

/-- Sample read sequence: a good transaction, an unknown-hash failure, and a
failed Soroban fee bump. -/
def wItems : List ReadOutcome := [.tx wTxA, .readErr wUnknownMsg, .tx wTxB]

/-- Sample block around `wItems`. -/
def wMeta : LedgerCloseMeta :=
  { sequence := 5, hash := "abc", baseFee := 100, closedAt := 10, reads := .ok wItems }

/-- Sample block whose only read outcome fails with an unrecognized error. -/
def wMetaBad : LedgerCloseMeta :=
  { sequence := 6, hash := "def", baseFee := 100, closedAt := 20,
    reads := .ok [.readErr wFatalMsg] }

/-- A freshly constructed processor. -/
def wProc : Processor := NewProcessor ⟨"test"⟩

/-- The record `ProcessLedger wProc wMeta` produces. -/
def wOut : LatestLedger :=
  { sequence := 5, hash := "abc", transactionCount := 3, txSetOperationCount := 3,
    successfulOperationCount := 2, successfulTxCount := 1, failedTxCount := 2,
    totalFeeCharged := 150, closedAt := 10, baseFee := 100, transactionsPerSecond := 2/5,
    sorobanTxCount := 1, totalSorobanFees := 7, totalResourceInstructions := 3,
    skippedTxCount := 0, unknownTxCount := 1 }

/-! ### Characterization lemmas for the scan -/

/-- One scan step over a decoded transaction, written field by field. -/
lemma processTxRecord_eq (m : LatestLedger) (t : LedgerTransaction) :
    processTxRecord m t = { m with
      transactionCount := m.transactionCount + 1
      txSetOperationCount := m.txSetOperationCount + opsOf (.tx t)
      totalFeeCharged := m.totalFeeCharged + feeOf (.tx t)
      successfulTxCount := m.successfulTxCount + succTxOf (.tx t)
      successfulOperationCount := m.successfulOperationCount + succOpsOf (.tx t)
      failedTxCount := m.failedTxCount + failTxOf (.tx t)
      sorobanTxCount := m.sorobanTxCount + sorobanTxOf (.tx t)
      totalSorobanFees := m.totalSorobanFees + sorobanFeeOf (.tx t)
      totalResourceInstructions := m.totalResourceInstructions + instrOf (.tx t) } := by
  by_cases hs : t.result.successful <;> by_cases hb : hasSorobanTransaction t <;>
    simp [processTxRecord, opsOf, feeOf, succTxOf, succOpsOf, failTxOf, sorobanTxOf,
      sorobanFeeOf, instrOf, hs, hb]

/-- The throughput step only fills the `transactionsPerSecond` field. -/
lemma applyRate_eq (p : Processor) (m : LatestLedger) :
    applyRate p m = { m with transactionsPerSecond :=
      match p.PreviousLedgerCloseTime with
      | some prev =>
        if m.closedAt - prev > 0 then
          (m.successfulOperationCount : ℚ) / (m.closedAt - prev)
        else
          (m.successfulOperationCount : ℚ) / 5
      | none => (m.successfulOperationCount : ℚ) / 5 } := by
  cases hp : p.PreviousLedgerCloseTime with
  | none => simp [applyRate, hp]
  | some prev => by_cases hd : m.closedAt - prev > 0 <;> simp [applyRate, hp, hd]

/-- Master accounting lemma: when the scan over `items` succeeds starting
from `m`, every output field is the input field plus the summed per-item
contribution (block-metadata fields are untouched). -/
theorem readLoop_ok_spec (items : List ReadOutcome) :
    ∀ m m' : LatestLedger, readLoop m items = Except.ok m' →
      m'.sequence = m.sequence ∧ m'.hash = m.hash ∧ m'.baseFee = m.baseFee ∧
      m'.closedAt = m.closedAt ∧ m'.transactionsPerSecond = m.transactionsPerSecond ∧
      m'.skippedTxCount = m.skippedTxCount ∧
      m'.transactionCount = m.transactionCount + items.length ∧
      m'.unknownTxCount = m.unknownTxCount + sumBy unknownTxOf items ∧
      m'.totalFeeCharged = m.totalFeeCharged + sumBy feeOf items ∧
      m'.txSetOperationCount = m.txSetOperationCount + sumBy opsOf items ∧
      m'.successfulOperationCount = m.successfulOperationCount + sumBy succOpsOf items ∧
      m'.successfulTxCount = m.successfulTxCount + sumBy succTxOf items ∧
      m'.failedTxCount = m.failedTxCount + sumBy failTxOf items ∧
      m'.sorobanTxCount = m.sorobanTxCount + sumBy sorobanTxOf items ∧
      m'.totalSorobanFees = m.totalSorobanFees + sumBy sorobanFeeOf items ∧
      m'.totalResourceInstructions = m.totalResourceInstructions + natSumBy instrOf items := by
  induction items with
  | nil =>
    intro m m' h
    simp only [readLoop] at h
    cases h
    simp [sumBy, natSumBy]
  | cons i rest ih =>
    intro m m' h
    cases i with
    | tx t =>
      simp only [readLoop] at h
      rw [processTxRecord_eq] at h
      obtain ⟨h1, h2, h3, h4, h5, h6, h7, h8, h9, h10, h11, h12, h13, h14, h15, h16⟩ :=
        ih _ _ h
      simp only [sumBy, natSumBy, List.length_cons, unknownTxOf, feeOf, opsOf, succOpsOf,
        succTxOf, failTxOf, sorobanTxOf, sorobanFeeOf, instrOf] at *
      refine ⟨?_, ?_, ?_, ?_, ?_, ?_, ?_, ?_, ?_, ?_, ?_, ?_, ?_, ?_, ?_, ?_⟩ <;>
        first
          | omega
          | simp_all
    | readErr msg =>
      simp only [readLoop] at h
      by_cases hc : goContains msg unknownTxHashSig
      · rw [if_pos hc] at h
        obtain ⟨h1, h2, h3, h4, h5, h6, h7, h8, h9, h10, h11, h12, h13, h14, h15, h16⟩ :=
          ih _ _ h
        simp only [sumBy, natSumBy, List.length_cons, unknownTxOf, feeOf, opsOf, succOpsOf,
          succTxOf, failTxOf, sorobanTxOf, sorobanFeeOf, instrOf] at *
        refine ⟨?_, ?_, ?_, ?_, ?_, ?_, ?_, ?_, ?_, ?_, ?_, ?_, ?_, ?_, ?_, ?_⟩ <;>
          first
            | omega
            | simp_all
      · rw [if_neg hc] at h
        cases h

/-- The scan fails exactly when some read error is not of the recognized
unknown-transaction class. -/
theorem readLoop_error_iff (items : List ReadOutcome) :
    ∀ m : LatestLedger, (∃ e, readLoop m items = Except.error e) ↔
      ∃ msg, ReadOutcome.readErr msg ∈ items ∧ goContains msg unknownTxHashSig = false := by
  induction items with
  | nil => intro m; simp [readLoop]
  | cons i rest ih =>
    intro m
    cases i with
    | tx t =>
      simp only [readLoop]
      rw [ih]
      constructor
      · rintro ⟨msg, hm, hc⟩
        exact ⟨msg, List.mem_cons_of_mem _ hm, hc⟩
      · rintro ⟨msg, hm, hc⟩
        rcases List.mem_cons.mp hm with h | h
        · simp at h
        · exact ⟨msg, h, hc⟩
    | readErr msg0 =>
      simp only [readLoop]
      by_cases hc : goContains msg0 unknownTxHashSig
      · rw [if_pos hc, ih]
        constructor
        · rintro ⟨msg, hm, hne⟩
          exact ⟨msg, List.mem_cons_of_mem _ hm, hne⟩
        · rintro ⟨msg, hm, hne⟩
          rcases List.mem_cons.mp hm with h | h
          · injection h with h
            subst h
            rw [hc] at hne
            cases hne
          · exact ⟨msg, h, hne⟩
      · rw [if_neg hc]
        constructor
        · intro _
          exact ⟨msg0, List.mem_cons_self _ _, by simpa using hc⟩
        · intro _
          exact ⟨_, rfl⟩

/-- When every read failure in the block is of the unknown class, the scan
succeeds. -/
theorem readLoop_ok_total (items : List ReadOutcome) (m : LatestLedger)
    (hall : ∀ i ∈ items, errIsUnknown i = true) :
    ∃ m', readLoop m items = Except.ok m' := by
  cases hres : readLoop m items with
  | ok m' => exact ⟨m', rfl⟩
  | error e =>
    exfalso
    obtain ⟨msg, hmem, hfalse⟩ := (readLoop_error_iff items m).mp ⟨e, hres⟩
    have hu := hall _ hmem
    simp only [errIsUnknown] at hu
    rw [hu] at hfalse
    cases hfalse

/-- Inversion of a successful `ProcessLedger` call. -/
theorem processLedger_ok_elim (p : Processor) (meta : LedgerCloseMeta) (p' : Processor)
    (m : LatestLedger) (h : ProcessLedger p meta = (p', Except.ok m)) :
    ∃ items mid, meta.reads = Except.ok items ∧
      readLoop (initMetrics meta) items = Except.ok mid ∧
      m = applyRate p mid ∧
      p' = { p with PreviousLedgerCloseTime := some m.closedAt } := by
  cases hr : meta.reads with
  | error e => simp [ProcessLedger, hr] at h
  | ok items =>
    cases hl : readLoop (initMetrics meta) items with
    | error e => simp [ProcessLedger, hr, hl] at h
    | ok mid =>
      simp only [ProcessLedger, hr, hl, Prod.mk.injEq, Except.ok.injEq] at h
      obtain ⟨hp, hm⟩ := h
      refine ⟨items, mid, rfl, hl, hm.symm, ?_⟩
      rw [← hp, ← hm]

/-- Inversion of a successful `ProcessLedger` call, second component only. -/
theorem processLedger_snd_ok_elim (p : Processor) (meta : LedgerCloseMeta)
    (m : LatestLedger) (h : (ProcessLedger p meta).2 = Except.ok m) :
    ∃ items mid, meta.reads = Except.ok items ∧
      readLoop (initMetrics meta) items = Except.ok mid ∧
      m = applyRate p mid := by
  have hpair : ProcessLedger p meta = ((ProcessLedger p meta).1, Except.ok m) := by
    rw [← h]
  obtain ⟨items, mid, h1, h2, h3, _⟩ := processLedger_ok_elim _ _ _ _ hpair
  exact ⟨items, mid, h1, h2, h3⟩

/-! ### Arithmetic facts about the per-item contributions -/

/-- Every read outcome is counted once as successful or as failed. -/
lemma sumBy_succTx_add_failTx (items : List ReadOutcome) :
    sumBy succTxOf items + sumBy failTxOf items = (items.length : Int) := by
  induction items with
  | nil => simp [sumBy]
  | cons i rest ih =>
    cases i with
    | tx t =>
      by_cases hs : t.result.successful <;>
        simp only [sumBy, succTxOf, failTxOf, hs, List.length_cons] <;> push_cast <;> omega
    | readErr msg =>
      simp only [sumBy, succTxOf, failTxOf, List.length_cons]
      push_cast
      omega

/-- Per-item successful-operation contributions are non-negative. -/
lemma succOpsOf_nonneg (i : ReadOutcome) : 0 ≤ succOpsOf i := by
  cases i with
  | tx t =>
    simp only [succOpsOf]
    split
    · exact Int.ofNat_nonneg _
    · exact le_refl 0
  | readErr msg => exact le_refl 0

/-- Per-item successful-operation contributions are bounded by the total
operation contributions. -/
lemma succOpsOf_le_opsOf (i : ReadOutcome) : succOpsOf i ≤ opsOf i := by
  cases i with
  | tx t =>
    simp only [succOpsOf, opsOf]
    split
    · exact le_refl _
    · exact Int.ofNat_nonneg _
  | readErr msg => exact le_refl 0

/-- Summed successful-operation counts are non-negative. -/
lemma sumBy_succOps_nonneg (items : List ReadOutcome) : 0 ≤ sumBy succOpsOf items := by
  induction items with
  | nil => exact le_refl 0
  | cons i rest ih =>
    simp only [sumBy]
    have := succOpsOf_nonneg i
    omega

/-- Summed successful-operation counts are bounded by summed submitted
operation counts. -/
lemma sumBy_succOps_le_ops (items : List ReadOutcome) :
    sumBy succOpsOf items ≤ sumBy opsOf items := by
  induction items with
  | nil => exact le_refl 0
  | cons i rest ih =>
    simp only [sumBy]
    have := succOpsOf_le_opsOf i
    omega

/-- C1: for every block for which `ProcessLedger` returns a Result Record,
`transaction_count = successful_tx_count + failed_tx_count`; unknown records
count toward both `transaction_count` and `failed_tx_count`. -/
theorem transaction_count_split (p : Processor) (meta : LedgerCloseMeta) (m : LatestLedger)
    (h : (ProcessLedger p meta).2 = Except.ok m) :
    m.transactionCount = m.successfulTxCount + m.failedTxCount := by
  obtain ⟨items, mid, hr, hl, hm⟩ := processLedger_snd_ok_elim p meta m h
  obtain ⟨-, -, -, -, -, -, h7, -, -, -, -, h12, h13, -, -, -⟩ := readLoop_ok_spec items _ _ hl
  have hsum := sumBy_succTx_add_failTx items
  subst hm
  rw [applyRate_eq]
  simp only [initMetrics] at h7 h12 h13
  simp at h7 h12 h13 ⊢
  omega

theorem transaction_count_split_witness :
    (ProcessLedger wProc wMeta).2 = Except.ok wOut ∧
    wOut.transactionCount = wOut.successfulTxCount + wOut.failedTxCount :=
  ⟨rfl, transaction_count_split wProc wMeta wOut rfl⟩

/-- C2: for every block for which `ProcessLedger` returns a Result Record,
`total_fee_charged` is the sum of each transaction's reported `fee_charged`;
failed transactions are included and unreadable (unknown) records contribute
nothing, having no readable fee. -/
theorem total_fee_charged_sum (p : Processor) (meta : LedgerCloseMeta)
    (items : List ReadOutcome) (m : LatestLedger)
    (hr : meta.reads = Except.ok items)
    (h : (ProcessLedger p meta).2 = Except.ok m) :
    m.totalFeeCharged = sumBy feeOf items := by
  obtain ⟨items', mid, hr', hl, hm⟩ := processLedger_snd_ok_elim p meta m h
  rw [hr] at hr'
  injection hr' with he
  subst he
  obtain ⟨-, -, -, -, -, -, -, -, h9, -, -, -, -, -, -, -⟩ := readLoop_ok_spec items _ _ hl
  subst hm
  rw [applyRate_eq]
  simp only [initMetrics] at h9
  simp at h9 ⊢
  omega

theorem total_fee_charged_sum_witness :
    wMeta.reads = Except.ok wItems ∧
    (ProcessLedger wProc wMeta).2 = Except.ok wOut ∧
    wOut.totalFeeCharged = sumBy feeOf wItems :=
  ⟨rfl, rfl, total_fee_charged_sum wProc wMeta wItems wOut rfl rfl⟩

/-- C7: for every block for which `ProcessLedger` returns a Result Record,
`tx_set_operation_count ≥ successful_operation_count ≥ 0`. -/
theorem operation_count_invariant (p : Processor) (meta : LedgerCloseMeta) (m : LatestLedger)
    (h : (ProcessLedger p meta).2 = Except.ok m) :
    0 ≤ m.successfulOperationCount ∧
    m.successfulOperationCount ≤ m.txSetOperationCount := by
  obtain ⟨items, mid, hr, hl, hm⟩ := processLedger_snd_ok_elim p meta m h
  obtain ⟨-, -, -, -, -, -, -, -, -, h10, h11, -, -, -, -, -⟩ := readLoop_ok_spec items _ _ hl
  have hnn := sumBy_succOps_nonneg items
  have hle := sumBy_succOps_le_ops items
  subst hm
  rw [applyRate_eq]
  simp only [initMetrics] at h10 h11
  simp at h10 h11 ⊢
  omega

theorem operation_count_invariant_witness :
    (ProcessLedger wProc wMeta).2 = Except.ok wOut ∧
    0 ≤ wOut.successfulOperationCount ∧
    wOut.successfulOperationCount ≤ wOut.txSetOperationCount :=
  ⟨rfl, operation_count_invariant wProc wMeta wOut rfl⟩

/-- C9: for every block for which `ProcessLedger` returns a Result Record,
`skipped_tx_count` is 0: no code path increments `SkippedTxCount`. -/
theorem skipped_tx_count_zero (p : Processor) (meta : LedgerCloseMeta) (m : LatestLedger)
    (h : (ProcessLedger p meta).2 = Except.ok m) :
    m.skippedTxCount = 0 := by
  obtain ⟨items, mid, hr, hl, hm⟩ := processLedger_snd_ok_elim p meta m h
  obtain ⟨-, -, -, -, -, h6, -, -, -, -, -, -, -, -, -, -⟩ := readLoop_ok_spec items _ _ hl
  subst hm
  rw [applyRate_eq]
  simp only [initMetrics] at h6
  simp at h6 ⊢
  omega

theorem skipped_tx_count_zero_witness :
    (ProcessLedger wProc wMeta).2 = Except.ok wOut ∧ wOut.skippedTxCount = 0 :=
  ⟨rfl, skipped_tx_count_zero wProc wMeta wOut rfl⟩

/-- The throughput step keeps the successful-operation count. -/
lemma applyRate_succOps (p : Processor) (m : LatestLedger) :
    (applyRate p m).successfulOperationCount = m.successfulOperationCount := by
  rw [applyRate_eq]

/-- The throughput step keeps the close time. -/
lemma applyRate_closedAt (p : Processor) (m : LatestLedger) :
    (applyRate p m).closedAt = m.closedAt := by
  rw [applyRate_eq]

/-- Bootstrap branch of the throughput step (`processor.go:139-142`). -/
lemma applyRate_tps_none (p : Processor) (m : LatestLedger)
    (hp : p.PreviousLedgerCloseTime = none) :
    (applyRate p m).transactionsPerSecond = (m.successfulOperationCount : ℚ) / 5 := by
  rw [applyRate_eq]
  simp [hp]

/-- Elapsed-time branch of the throughput step (`processor.go:131-134`). -/
lemma applyRate_tps_pos (p : Processor) (m : LatestLedger) (prev : ℚ)
    (hp : p.PreviousLedgerCloseTime = some prev) (hd : 0 < m.closedAt - prev) :
    (applyRate p m).transactionsPerSecond =
      (m.successfulOperationCount : ℚ) / (m.closedAt - prev) := by
  rw [applyRate_eq]
  simp [hp, hd]

/-- Fallback branch of the throughput step (`processor.go:135-137`). -/
lemma applyRate_tps_nonpos (p : Processor) (m : LatestLedger) (prev : ℚ)
    (hp : p.PreviousLedgerCloseTime = some prev) (hd : ¬ 0 < m.closedAt - prev) :
    (applyRate p m).transactionsPerSecond = (m.successfulOperationCount : ℚ) / 5 := by
  rw [applyRate_eq]
  simp [hp, hd]

/-- C3: the throughput branch structure.  With no stored previous close time
(first block for this instance) the rate is `successful_operation_count / 5`;
with a stored time, the rate divides by the elapsed close-time difference
when it is positive and falls back to the divisor 5 otherwise; in every case
the divisor is strictly positive. -/
theorem transactions_per_second_spec (p : Processor) (meta : LedgerCloseMeta)
    (m : LatestLedger) (h : (ProcessLedger p meta).2 = Except.ok m) :
    (p.PreviousLedgerCloseTime = none →
      m.transactionsPerSecond = (m.successfulOperationCount : ℚ) / 5) ∧
    (∀ prev : ℚ, p.PreviousLedgerCloseTime = some prev →
      (0 < meta.closedAt - prev →
        m.transactionsPerSecond = (m.successfulOperationCount : ℚ) / (meta.closedAt - prev)) ∧
      (meta.closedAt - prev ≤ 0 →
        m.transactionsPerSecond = (m.successfulOperationCount : ℚ) / 5)) ∧
    (∃ d : ℚ, 0 < d ∧ m.transactionsPerSecond = (m.successfulOperationCount : ℚ) / d) := by
  obtain ⟨items, mid, hr, hl, hm⟩ := processLedger_snd_ok_elim p meta m h
  obtain ⟨-, -, -, h4, -, -, -, -, -, -, -, -, -, -, -, -⟩ := readLoop_ok_spec items _ _ hl
  have hca : mid.closedAt = meta.closedAt := by simpa [initMetrics] using h4
  subst hm
  refine ⟨?_, ?_, ?_⟩
  · intro hp
    rw [applyRate_succOps, applyRate_tps_none p mid hp]
  · intro prev hp
    constructor
    · intro hd
      rw [applyRate_succOps, applyRate_tps_pos p mid prev hp (by rw [hca]; exact hd), hca]
    · intro hd
      rw [applyRate_succOps,
        applyRate_tps_nonpos p mid prev hp (by rw [hca]; exact not_lt.mpr hd)]
  · cases hp : p.PreviousLedgerCloseTime with
    | none =>
      exact ⟨5, by norm_num, by rw [applyRate_succOps, applyRate_tps_none p mid hp]⟩
    | some prev =>
      by_cases hd : 0 < mid.closedAt - prev
      · exact ⟨mid.closedAt - prev, hd,
          by rw [applyRate_succOps, applyRate_tps_pos p mid prev hp hd]⟩
      · exact ⟨5, by norm_num,
          by rw [applyRate_succOps, applyRate_tps_nonpos p mid prev hp hd]⟩

theorem transactions_per_second_spec_witness :
    wProc.PreviousLedgerCloseTime = none ∧
    wOut.transactionsPerSecond = (wOut.successfulOperationCount : ℚ) / 5 :=
  ⟨rfl, (transactions_per_second_spec wProc wMeta wOut rfl).1 rfl⟩

/-- C8: after every successful call the stored previous-close timestamp is
the processed block's close time, from both the uninitialized and the
initialized state. -/
theorem previous_close_time_update (p : Processor) (meta : LedgerCloseMeta)
    (p' : Processor) (m : LatestLedger)
    (h : ProcessLedger p meta = (p', Except.ok m)) :
    p'.PreviousLedgerCloseTime = some meta.closedAt ∧ m.closedAt = meta.closedAt := by
  obtain ⟨items, mid, hr, hl, hm, hp⟩ := processLedger_ok_elim p meta p' m h
  obtain ⟨-, -, -, h4, -, -, -, -, -, -, -, -, -, -, -, -⟩ := readLoop_ok_spec items _ _ hl
  have hca : m.closedAt = meta.closedAt := by
    subst hm
    rw [applyRate_closedAt]
    simpa [initMetrics] using h4
  subst hp
  exact ⟨by simp [hca], hca⟩

theorem previous_close_time_update_witness :
    ProcessLedger wProc wMeta = (⟨"test", some 10⟩, Except.ok wOut) ∧
    (⟨"test", some 10⟩ : Processor).PreviousLedgerCloseTime = some wMeta.closedAt :=
  ⟨rfl, (previous_close_time_update wProc wMeta ⟨"test", some 10⟩ wOut rfl).1⟩

/-- C10: when `ProcessLedger` returns an error the processor state, in
particular the stored previous-close timestamp, is unchanged. -/
theorem error_preserves_state (p : Processor) (meta : LedgerCloseMeta) (e : String)
    (h : (ProcessLedger p meta).2 = Except.error e) :
    (ProcessLedger p meta).1.PreviousLedgerCloseTime = p.PreviousLedgerCloseTime ∧
    (ProcessLedger p meta).1 = p := by
  cases hr : meta.reads with
  | error e' => simp [ProcessLedger, hr]
  | ok items =>
    cases hl : readLoop (initMetrics meta) items with
    | error e' => simp [ProcessLedger, hr, hl]
    | ok mid =>
      exfalso
      simp [ProcessLedger, hr, hl] at h

theorem error_preserves_state_witness :
    (ProcessLedger wProc wMetaBad).1.PreviousLedgerCloseTime = wProc.PreviousLedgerCloseTime :=
  (error_preserves_state wProc wMetaBad wFatalErr rfl).1

/-- C4: a block whose iterator failures are all of the recognized
`"unknown tx hash"` class still yields a Result Record; each such failure
adds one to `transaction_count`, `failed_tx_count` and `unknown_tx_count`
(`unknownTxOf`/`failTxOf` give it 1) and contributes nothing to the fee,
operation and resource sums (`feeOf`, `opsOf`, `succOpsOf`, `sorobanTxOf`,
`sorobanFeeOf`, `instrOf` give it 0). -/
theorem unknown_tx_tolerance (p : Processor) (meta : LedgerCloseMeta)
    (items : List ReadOutcome)
    (hr : meta.reads = Except.ok items)
    (hall : ∀ i ∈ items, errIsUnknown i = true) :
    exceptIsOk (ProcessLedger p meta).2 = true ∧
    ∀ m, (ProcessLedger p meta).2 = Except.ok m →
      m.transactionCount = items.length ∧
      m.unknownTxCount = sumBy unknownTxOf items ∧
      m.failedTxCount = sumBy failTxOf items ∧
      m.totalFeeCharged = sumBy feeOf items ∧
      m.txSetOperationCount = sumBy opsOf items ∧
      m.successfulOperationCount = sumBy succOpsOf items ∧
      m.sorobanTxCount = sumBy sorobanTxOf items ∧
      m.totalSorobanFees = sumBy sorobanFeeOf items ∧
      m.totalResourceInstructions = natSumBy instrOf items := by
  constructor
  · obtain ⟨mid, hl⟩ := readLoop_ok_total items (initMetrics meta) hall
    simp [ProcessLedger, hr, hl, exceptIsOk]
  · intro m h
    obtain ⟨items', mid, hr', hl, hm⟩ := processLedger_snd_ok_elim p meta m h
    rw [hr] at hr'
    injection hr' with he
    subst he
    obtain ⟨-, -, -, -, -, -, h7, h8, h9, h10, h11, -, h13, h14, h15, h16⟩ :=
      readLoop_ok_spec items _ _ hl
    subst hm
    rw [applyRate_eq]
    simp only [initMetrics] at h7 h8 h9 h10 h11 h13 h14 h15 h16
    simp at h7 h8 h9 h10 h11 h13 h14 h15 h16 ⊢
    refine ⟨?_, ?_, ?_, ?_, ?_, ?_, ?_, ?_, ?_⟩ <;> omega

theorem unknown_tx_tolerance_witness :
    exceptIsOk (ProcessLedger wProc wMeta).2 = true ∧
    wOut.unknownTxCount = sumBy unknownTxOf wItems ∧
    wOut.failedTxCount = sumBy failTxOf wItems := by
  have h := unknown_tx_tolerance wProc wMeta wItems rfl (by decide)
  have h2 := h.2 wOut rfl
  exact ⟨h.1, h2.2.1, h2.2.2.1⟩

/-- C5: `ProcessLedger` returns an error exactly when the reader cannot be
constructed, or some read fails with a message outside the recognized
`"unknown tx hash"` class; the `Except` result is an error or a complete
record, never both, so no partial record is produced. -/
theorem decode_error_iff (p : Processor) (meta : LedgerCloseMeta) :
    (∃ e, (ProcessLedger p meta).2 = Except.error e) ↔
      (∃ e, meta.reads = Except.error e) ∨
      (∃ items msg, meta.reads = Except.ok items ∧ ReadOutcome.readErr msg ∈ items ∧
        goContains msg unknownTxHashSig = false) := by
  cases hr : meta.reads with
  | error e =>
    constructor
    · intro _
      exact Or.inl ⟨e, rfl⟩
    · intro _
      exact ⟨"error creating transaction reader: " ++ e, by simp [ProcessLedger, hr]⟩
  | ok items =>
    have hiff := readLoop_error_iff items (initMetrics meta)
    cases hl : readLoop (initMetrics meta) items with
    | error e =>
      obtain ⟨msg, hmem, hc⟩ := hiff.mp ⟨e, hl⟩
      constructor
      · intro _
        exact Or.inr ⟨items, msg, rfl, hmem, hc⟩
      · intro _
        exact ⟨e, by simp [ProcessLedger, hr, hl]⟩
    | ok mid =>
      constructor
      · rintro ⟨e', he'⟩
        exfalso
        simp [ProcessLedger, hr, hl] at he'
      · rintro (⟨e', he'⟩ | ⟨items', msg, hi, hmem, hc⟩)
        · exact absurd he' (by simp)
        · injection hi with hi
          subst hi
          obtain ⟨e0, he0⟩ := hiff.mpr ⟨msg, hmem, hc⟩
          rw [hl] at he0
          exact absurd he0 (by simp)

/-- C6: a transaction carries Soroban (resource-usage) data exactly when the
plain `v1` envelope carries the extension directly or the fee-bump envelope's
inner transaction carries it (one level of unwrapping); any other variant
yields none.  A fee-bump transaction with Soroban data on its inner
transaction increments `sorobanTxCount`, and the extractor reads the
descriptor's fields from the proper union arm for both variants. -/
theorem soroban_extractor_spec (tx : LedgerTransaction) :
    (hasSorobanTransaction tx = true ↔
      (∃ b d, tx.envelope = TransactionEnvelope.v1 b ∧ b.ext = TransactionExt.v1 d) ∨
      (∃ b d, tx.envelope = TransactionEnvelope.feeBump b ∧ b.ext = TransactionExt.v1 d)) ∧
    (∀ (m : LatestLedger) (ops : List Unit) (d : SorobanTransactionData)
        (r : TransactionResultPair),
      (processTxRecord m
          ⟨TransactionEnvelope.feeBump ⟨ops, TransactionExt.v1 d⟩, r⟩).sorobanTxCount =
        m.sorobanTxCount + 1) ∧
    (∀ (ops : List Unit) (d : SorobanTransactionData) (r : TransactionResultPair),
      getSorobanMetrics ⟨TransactionEnvelope.v1 ⟨ops, TransactionExt.v1 d⟩, r⟩ =
        ⟨d.resourceFee, d.resources.instructions, d.resources.readBytes,
          d.resources.writeBytes⟩ ∧
      getSorobanMetrics ⟨TransactionEnvelope.feeBump ⟨ops, TransactionExt.v1 d⟩, r⟩ =
        ⟨d.resourceFee, d.resources.instructions, d.resources.readBytes,
          d.resources.writeBytes⟩) := by
  refine ⟨?_, ?_, ?_⟩
  · cases he : tx.envelope with
    | v0 ops =>
      simp [hasSorobanTransaction, he]
    | v1 b =>
      cases hx : b.ext with
      | v0 =>
        simp [hasSorobanTransaction, he, TransactionExt.getSorobanData, hx]
      | v1 d =>
        simp [hasSorobanTransaction, he, TransactionExt.getSorobanData, hx]
    | feeBump b =>
      cases hx : b.ext with
      | v0 =>
        simp [hasSorobanTransaction, he, TransactionExt.getSorobanData, hx]
      | v1 d =>
        simp [hasSorobanTransaction, he, TransactionExt.getSorobanData, hx]
  · intro m ops d r
    rw [processTxRecord_eq]
    simp [sorobanTxOf, hasSorobanTransaction, TransactionExt.getSorobanData]
  · intro ops d r
    constructor <;> simp [getSorobanMetrics, TransactionExt.getSorobanData]
